import Mathlib

/-!
Verification of the IMU live-chart dashboard (`src/App.jsx`).

The only non-trivial logic of the repository lives in the `useImuData`
hook: a connection-status state machine driven by messaging-client
lifecycle events, and a message handler that parses a JSON payload,
resolves six optional sensor fields with a scaled-fallback rule, and
appends samples to two 300-point FIFO buffers.

We embed the JavaScript values and the handler shallowly:

* `JSVal` models the JavaScript values reachable here (JSON values plus
  `undefined` and `NaN`); numbers are rationals.
* `JSON.parse` is a host builtin, so the handler takes its outcome as an
  `Option JSVal` argument (`none` = the parse threw and was caught at
  `App.jsx:61-64`).
* Exceptions that escape the handler (a `TypeError` from a property
  access on `null`/`undefined`, `App.jsx:68`) are modelled by
  `Except Unit`.
* `new Date().toLocaleTimeString()` (`App.jsx:67`) is nondeterministic
  input, passed as the `t : String` argument; it is computed once per
  message, before routing, exactly as in the source.
-/

/-- JavaScript values occurring in the message-handling path: the JSON
values (`null`, booleans, numbers, strings, arrays, objects) together
with `undefined` (absent property) and `NaN` (failed numeric coercion).
Numbers are modelled as rationals. -/
inductive JSVal where
  | undefined : JSVal
  | null : JSVal
  | nan : JSVal
  | bool : Bool → JSVal
  | num : ℚ → JSVal
  | str : String → JSVal
  | arr : List JSVal → JSVal
  | obj : List (String × JSVal) → JSVal

/-- `v == null` under JavaScript loose equality: true exactly for `null`
and `undefined`.  `App.jsx` uses `?? ` and `!= null`, both of which test
this predicate. -/
def JSVal.isNullish : JSVal → Bool
  | .null => true
  | .undefined => true
  | _ => false

/-- Own-property lookup on a parsed JSON object.  `JSON.parse` keeps the
last occurrence of a duplicated key, so the lookup returns the last
binding. -/
def lookupField (fs : List (String × JSVal)) (k : String) : Option JSVal :=
  ((fs.reverse).find? (fun p => p.1 = k)).map (fun p => p.2)

/-- JavaScript property access `v[k]` for the keys used by the handler
(`ax`, `ax_mg`, ...). On `null`/`undefined` it throws a `TypeError`
(`.error ()`); on an object it yields the own property or `undefined`;
on any other primitive or array it yields `undefined` (none of the
handler's keys exists on the built-in prototypes). -/
def getProp (v : JSVal) (k : String) : Except Unit JSVal :=
  match v with
  | .null => .error ()
  | .undefined => .error ()
  | .obj fs => .ok ((lookupField fs k).getD .undefined)
  | _ => .ok .undefined

/-- Value of a list of decimal digit characters. -/
def digitsVal (cs : List Char) : ℕ :=
  cs.foldl (fun a c => 10 * a + (c.toNat - 48)) 0

/-- Value of a list of digit characters in base `b` (used for the
`0x`/`0o`/`0b` string-number forms). -/
def radixVal (b : ℕ) (cs : List Char) : ℕ :=
  cs.foldl (fun a c =>
    b * a + (if c.toNat ≥ 97 then c.toNat - 87
             else if c.toNat ≥ 65 then c.toNat - 55
             else c.toNat - 48)) 0

/-- Whether `c` is a digit of base `b` (`b` one of 2, 8, 10, 16). -/
def isRadixDigit (b : ℕ) (c : Char) : Bool :=
  if b = 16 then c.isDigit || ('a' ≤ c && c ≤ 'f') || ('A' ≤ c && c ≤ 'F')
  else '0' ≤ c && c.toNat < 48 + b

/-- JavaScript `ToNumber` on a string (the `StringNumericLiteral`
grammar): surrounding whitespace is ignored, the empty string is `0`,
an optional sign precedes a decimal literal with optional fraction and
exponent, and unsigned `0x`/`0o`/`0b` literals are radix numerals;
anything else is `NaN` (`none`). -/
def strToNumber (s : String) : Option ℚ :=
  let cs := ((s.toList.dropWhile Char.isWhitespace).reverse.dropWhile
    Char.isWhitespace).reverse
  match cs with
  | [] => some 0
  | '0' :: c :: rest =>
      if c = 'x' ∨ c = 'X' then
        if rest ≠ [] ∧ rest.all (isRadixDigit 16) then some (radixVal 16 rest)
        else none
      else if c = 'o' ∨ c = 'O' then
        if rest ≠ [] ∧ rest.all (isRadixDigit 8) then some (radixVal 8 rest)
        else none
      else if c = 'b' ∨ c = 'B' then
        if rest ≠ [] ∧ rest.all (isRadixDigit 2) then some (radixVal 2 rest)
        else none
      else decimalLit cs
  | _ => decimalLit cs
where
  /-- Signed decimal literal with optional fraction and exponent. -/
  decimalLit (cs : List Char) : Option ℚ :=
    let (sgn, cs) : ℚ × List Char :=
      match cs with
      | '+' :: r => (1, r)
      | '-' :: r => (-1, r)
      | r => (1, r)
    let intD := cs.takeWhile Char.isDigit
    let cs := cs.dropWhile Char.isDigit
    let (fracD, cs) : List Char × List Char :=
      match cs with
      | '.' :: r => (r.takeWhile Char.isDigit, r.dropWhile Char.isDigit)
      | r => ([], r)
    if intD = [] ∧ fracD = [] then none
    else
      let mant : ℚ := (digitsVal intD : ℚ) +
        (digitsVal fracD : ℚ) / ((10 : ℚ) ^ fracD.length)
      match cs with
      | [] => some (sgn * mant)
      | e :: r =>
          if e = 'e' ∨ e = 'E' then
            let (esgn, r) : ℤ × List Char :=
              match r with
              | '+' :: r2 => (1, r2)
              | '-' :: r2 => (-1, r2)
              | r2 => (1, r2)
            if r ≠ [] ∧ r.all Char.isDigit then
              some (sgn * mant * (10 : ℚ) ^ (esgn * (digitsVal r : ℤ)))
            else none
          else none

/-- JavaScript `ToNumber`, on the values reachable from a parsed JSON
message: numbers are themselves, `null` is 0, booleans are 0/1, strings
go through the string-numeric grammar, the empty array is 0, and other
arrays, objects, `undefined` and `NaN` coerce to `NaN` (`none`).  (A
one-element array of a coercible value also coerces in JavaScript; such
a value in a sensor field is outside the wire format and is mapped to
`NaN` here.) -/
def toNumber : JSVal → Option ℚ
  | .num q => some q
  | .null => some 0
  | .bool b => some (if b then 1 else 0)
  | .str s => strToNumber s
  | .arr [] => some 0
  | _ => none

/-- JavaScript division `v / d` for a number literal divisor `d`, as in
`msg.ax_mg / 1000` (`App.jsx:68-73`): `ToNumber` the left operand, then
divide; a failed coercion gives `NaN`. -/
def jsDiv (v : JSVal) (d : ℚ) : JSVal :=
  match toNumber v with
  | some q => .num (q / d)
  | none => .nan

/-- One line of the field-fallback chain
`msg.pre ?? (msg.raw != null ? msg.raw / scale : null)`
(`App.jsx:68-73`), with JavaScript evaluation order: the access
`msg.pre` runs first (and throws if `msg` is `null`/`undefined`); if its
result is nullish the right-hand side runs, guarding the division by
`msg.raw != null`. -/
def resolveField (msg : JSVal) (pre raw : String) (scale : ℚ) :
    Except Unit JSVal := do
  let a ← getProp msg pre
  if a.isNullish then
    let b ← getProp msg raw
    if b.isNullish then pure .null else pure (jsDiv b scale)
  else
    pure a

/-- The six decoded logical fields of one message. -/
structure Decoded where
  ax : JSVal
  ay : JSVal
  az : JSVal
  gx : JSVal
  gy : JSVal
  gz : JSVal

/-- The decoding block `App.jsx:68-73`: the six `const` declarations, in
source order. -/
def decodeMsg (msg : JSVal) : Except Unit Decoded := do
  let ax ← resolveField msg "ax" "ax_mg" 1000
  let ay ← resolveField msg "ay" "ay_mg" 1000
  let az ← resolveField msg "az" "az_mg" 1000
  let gx ← resolveField msg "gx" "gx_cds" 100
  let gy ← resolveField msg "gy" "gy_cds" 100
  let gz ← resolveField msg "gz" "gz_cds" 100
  pure ⟨ax, ay, az, gx, gy, gz⟩

/-- Connection status values set by the lifecycle handlers
(`App.jsx:19,31,42-48`). -/
inductive Status where
  | connecting
  | connected
  | reconnecting
  | offline
  | closed
  | error
deriving DecidableEq

/-- One point of the accelerometer buffer: `{ t, ax, ay, az }`
(`App.jsx:77`). -/
structure AccelSample where
  t : String
  ax : JSVal
  ay : JSVal
  az : JSVal

/-- One point of the gyroscope buffer: `{ t, gx, gy, gz }`
(`App.jsx:84`). -/
structure GyroSample where
  t : String
  gx : JSVal
  gy : JSVal
  gz : JSVal

/-- The hook's render state: `status`, `accel`, `gyro`
(`App.jsx:19-21`). -/
structure AppState where
  status : Status
  accel : List AccelSample
  gyro : List GyroSample

/-- `App.jsx:16`. -/
def MAX_POINTS : ℕ := 300

/-- The buffer update inside each `set*` call (`App.jsx:77-79,84-86`):
append the new point, then if the length exceeds `MAX_POINTS` remove the
first element (`next.shift()`). -/
def pushCap {α : Type} (l : List α) (x : α) : List α :=
  let next := l ++ [x]
  if MAX_POINTS < next.length then next.drop 1 else next

/-- A sample is routed to a buffer when some of its three fields
satisfies `v != null` (`App.jsx:75,82`). -/
def anyNonNull (vs : List JSVal) : Bool :=
  vs.any (fun v => ! v.isNullish)

/-- The `message` handler body after the raw-payload logging
(`App.jsx:58-89`).  `parsed` is the outcome of
`JSON.parse(raw.trim())`: `none` when the parse threw (the handler
catches it, logs, and returns with the state untouched); `some msg`
otherwise.  `t` is the timestamp string computed once at `App.jsx:67`.
The result is `.error ()` when an uncaught exception escapes the
handler. -/
def handleMessage (st : AppState) (t : String) (parsed : Option JSVal) :
    Except Unit AppState :=
  match parsed with
  | none => .ok st
  | some msg => do
      let d ← decodeMsg msg
      let accel' := if anyNonNull [d.ax, d.ay, d.az] then
          pushCap st.accel ⟨t, d.ax, d.ay, d.az⟩ else st.accel
      let gyro' := if anyNonNull [d.gx, d.gy, d.gz] then
          pushCap st.gyro ⟨t, d.gx, d.gy, d.gz⟩ else st.gyro
      pure { st with accel := accel', gyro := gyro' }

/-- Deliver a sequence of messages (timestamp, parse outcome) in arrival
order, stopping at the first uncaught exception. -/
def processAll (st : AppState) : List (String × Option JSVal) →
    Except Unit AppState
  | [] => .ok st
  | m :: ms =>
      match handleMessage st m.1 m.2 with
      | .error e => .error e
      | .ok st' => processAll st' ms

/-- The hook's state on mount: `status = "connecting"`, both buffers
empty (`App.jsx:19-21`). -/
def initialState : AppState := ⟨.connecting, [], []⟩

/-- Messaging-client lifecycle events with a registered status handler
(`App.jsx:41-48`). -/
inductive LifeEvent where
  | connect
  | reconnect
  | close
  | offline
  | errorEvent
deriving DecidableEq

/-- The status written by each lifecycle handler; each handler sets a
fixed value regardless of the current status (`App.jsx:31,42-48`). -/
def eventStatus : LifeEvent → Status
  | .connect => .connected
  | .reconnect => .reconnecting
  | .close => .closed
  | .offline => .offline
  | .errorEvent => .error

/-- The sequence of statuses observed when the given lifecycle events
fire in order, starting from status `s`: the initial status followed by
the status after each event. -/
def statusesFrom (s : Status) : List LifeEvent → List Status
  | [] => [s]
  | e :: es => s :: statusesFrom (eventStatus e) es

/-!
Spec-side definitions.  `specResolve` transcribes the specification's
field-fallback rule word for word ("prefer a pre-scaled field if present
and non-null; otherwise, if a raw integer-scaled field is present and
non-null, divide by the fixed scale factor; otherwise the field is
null"), to be compared against `resolveField`, which embeds the source
expression.
-/

/-- The raw-field half of the specification's fallback rule: if the raw
integer-scaled field is present and non-null, its value divided by the
scale factor, otherwise null. -/
def specRawFallback (fs : List (String × JSVal)) (raw : String)
    (scale : ℚ) : JSVal :=
  match lookupField fs raw with
  | some w => if w.isNullish then .null else jsDiv w scale
  | none => .null

/-- The specification's field-resolution rule: prefer the pre-scaled
field when present and non-null, otherwise fall back to the scaled raw
field, otherwise null. -/
def specResolve (fs : List (String × JSVal)) (pre raw : String)
    (scale : ℚ) : JSVal :=
  match lookupField fs pre with
  | some v => if v.isNullish then specRawFallback fs raw scale else v
  | none => specRawFallback fs raw scale

/-- The six resolved fields of a parsed JSON object, in closed form
(proved below to agree with the handler's decoding block). -/
def decodeObj (fs : List (String × JSVal)) : Decoded :=
  ⟨specResolve fs "ax" "ax_mg" 1000, specResolve fs "ay" "ay_mg" 1000,
   specResolve fs "az" "az_mg" 1000, specResolve fs "gx" "gx_cds" 100,
   specResolve fs "gy" "gy_cds" 100, specResolve fs "gz" "gz_cds" 100⟩

/-- The routing guard of `App.jsx:75` on a parsed object: some
accelerometer field decodes non-null. -/
def accelHit (fs : List (String × JSVal)) : Bool :=
  anyNonNull [(decodeObj fs).ax, (decodeObj fs).ay, (decodeObj fs).az]

/-- The routing guard of `App.jsx:82` on a parsed object: some gyroscope
field decodes non-null. -/
def gyroHit (fs : List (String × JSVal)) : Bool :=
  anyNonNull [(decodeObj fs).gx, (decodeObj fs).gy, (decodeObj fs).gz]

/-- The accelerometer point built at `App.jsx:77` for a parsed object. -/
def accelSampleOf (t : String) (fs : List (String × JSVal)) : AccelSample :=
  ⟨t, (decodeObj fs).ax, (decodeObj fs).ay, (decodeObj fs).az⟩

/-- The gyroscope point built at `App.jsx:84` for a parsed object. -/
def gyroSampleOf (t : String) (fs : List (String × JSVal)) : GyroSample :=
  ⟨t, (decodeObj fs).gx, (decodeObj fs).gy, (decodeObj fs).gz⟩

/-- JSON values that are neither `null` nor an object: booleans,
numbers, strings, arrays. -/
def JSVal.isNonNullNonObj : JSVal → Bool
  | .bool _ => true
  | .num _ => true
  | .str _ => true
  | .arr _ => true
  | _ => false

/-- The last `n` elements of a list (the whole list when it is shorter
than `n`). -/
def lastN {α : Type} (n : ℕ) (l : List α) : List α :=
  l.drop (l.length - n)

/-- The accelerometer sample a message decodes to (junk for messages
that do not parse to an object). -/
def sampleOfMsg (m : String × Option JSVal) : AccelSample :=
  match m.2 with
  | some (.obj fs) => accelSampleOf m.1 fs
  | _ => ⟨"", .null, .null, .null⟩

/-- A message that parses to a JSON object and passes the accelerometer
routing guard (a "valid accel message"). -/
def ValidAccel (m : String × Option JSVal) : Prop :=
  ∃ fs, m.2 = some (.obj fs) ∧ accelHit fs = true

/-!
Helper lemmas.
-/

/-- Bind on a successful `Except` computation is application. -/
theorem except_bind_ok {ε α β : Type} (a : α) (f : α → Except ε β) :
    ((Except.ok a : Except ε α) >>= f) = f a := rfl

/-- Bind on a failed `Except` computation propagates the failure. -/
theorem except_bind_error {ε α β : Type} (e : ε) (f : α → Except ε β) :
    ((Except.error e : Except ε α) >>= f) = Except.error e := rfl

/-- `pure` for `Except` is `Except.ok`. -/
theorem except_pure {ε α : Type} (a : α) :
    (pure a : Except ε α) = Except.ok a := rfl

/-- Mapping over a successful `Except` computation. -/
theorem except_map_ok {ε α β : Type} (a : α) (f : α → β) :
    (f <$> (Except.ok a : Except ε α)) = Except.ok (f a) := rfl

/-- Mapping over a failed `Except` computation. -/
theorem except_map_error {ε α β : Type} (e : ε) (f : α → β) :
    (f <$> (Except.error e : Except ε α)) = Except.error e := rfl

/-- The source's fallback expression agrees with the specification's
resolution rule on every parsed JSON object. -/
theorem resolveField_obj (fs : List (String × JSVal)) (pre raw : String)
    (scale : ℚ) :
    resolveField (.obj fs) pre raw scale = .ok (specResolve fs pre raw scale) := by
  cases h1 : lookupField fs pre with
  | none =>
      cases h2 : lookupField fs raw with
      | none =>
          simp [resolveField, getProp, specResolve, specRawFallback, h1, h2,
            except_bind_ok, except_pure, JSVal.isNullish]
      | some w =>
          cases w <;>
            simp [resolveField, getProp, specResolve, specRawFallback, h1, h2,
              except_bind_ok, except_pure, JSVal.isNullish]
  | some v =>
      cases h2 : lookupField fs raw with
      | none =>
          cases v <;>
            simp [resolveField, getProp, specResolve, specRawFallback, h1, h2,
              except_bind_ok, except_pure, JSVal.isNullish]
      | some w =>
          cases v <;> cases w <;>
            simp [resolveField, getProp, specResolve, specRawFallback, h1, h2,
              except_bind_ok, except_pure, JSVal.isNullish]

/-- The six `const` declarations decode a parsed object to the closed
form `decodeObj`. -/
theorem decodeMsg_obj (fs : List (String × JSVal)) :
    decodeMsg (.obj fs) = .ok (decodeObj fs) := by
  simp [decodeMsg, resolveField_obj, decodeObj, except_bind_ok, except_pure,
    except_map_ok]

/-- The handler's effect on a message that parsed to a JSON object. -/
theorem handleMessage_obj (st : AppState) (t : String)
    (fs : List (String × JSVal)) :
    handleMessage st t (some (.obj fs)) =
      .ok ⟨st.status,
        if accelHit fs then pushCap st.accel (accelSampleOf t fs) else st.accel,
        if gyroHit fs then pushCap st.gyro (gyroSampleOf t fs) else st.gyro⟩ := by
  simp [handleMessage, decodeMsg_obj, accelHit, gyroHit, accelSampleOf,
    gyroSampleOf, except_bind_ok, except_pure, except_map_ok]

/-- A message parsing to a non-null non-object JSON value leaves the
state untouched: property access on such a value yields `undefined`, so
all six fields decode to null and neither routing guard fires. -/
theorem handleMessage_nonobj (st : AppState) (t : String) (v : JSVal)
    (hv : v.isNonNullNonObj = true) :
    handleMessage st t (some v) = .ok st := by
  cases v with
  | undefined => simp [JSVal.isNonNullNonObj] at hv
  | null => simp [JSVal.isNonNullNonObj] at hv
  | nan => simp [JSVal.isNonNullNonObj] at hv
  | obj fs => simp [JSVal.isNonNullNonObj] at hv
  | bool b => rfl
  | num q => rfl
  | str s => rfl
  | arr l => rfl

/-- A message parsing to JSON `null` makes the handler throw: the first
field access `msg.ax` is a property access on `null`. -/
theorem handleMessage_null (st : AppState) (t : String) :
    handleMessage st t (some .null) = .error () := rfl

/-- A list of at most `n` elements is its own last-`n` window. -/
theorem lastN_of_le {α : Type} {n : ℕ} {l : List α} (h : l.length ≤ n) :
    lastN n l = l := by
  unfold lastN
  have h0 : l.length - n = 0 := by omega
  simp [h0]

/-- Sliding a capped window forward: keeping the last `n` after
appending to an already-capped list is the same as capping at the
end. -/
theorem lastN_append_lastN {α : Type} (n : ℕ) (l r : List α) :
    lastN n (lastN n l ++ r) = lastN n (l ++ r) := by
  unfold lastN
  rcases le_or_lt l.length n with h | h
  · have h0 : l.length - n = 0 := by omega
    simp [h0]
  · simp only [List.length_append, List.length_drop]
    have h1 : l.length - (l.length - n) + r.length - n = r.length := by omega
    have h2 : l.length + r.length - n = (l.length - n) + r.length := by omega
    rw [h1, h2, ← List.drop_drop,
      List.drop_append_of_le_length (Nat.sub_le l.length n)]

/-- The buffer update is exactly the last-`MAX_POINTS` window of the
appended list, provided the buffer was within the cap. -/
theorem pushCap_eq_lastN {α : Type} (l : List α) (x : α)
    (h : l.length ≤ MAX_POINTS) :
    pushCap l x = lastN MAX_POINTS (l ++ [x]) := by
  unfold pushCap lastN
  simp only [List.length_append, List.length_cons, List.length_nil]
  by_cases hc : MAX_POINTS < l.length + 1
  · have h1 : l.length + 1 - MAX_POINTS = 1 := by omega
    simp [hc, h1]
  · have h0 : l.length + 1 - MAX_POINTS = 0 := by omega
    simp [hc, h0]

/-- The cap is preserved by the buffer update. -/
theorem pushCap_length_le {α : Type} (l : List α) (x : α)
    (h : l.length ≤ MAX_POINTS) :
    (pushCap l x).length ≤ MAX_POINTS := by
  rw [pushCap_eq_lastN l x h]
  unfold lastN
  simp only [List.length_drop, List.length_append, List.length_cons,
    List.length_nil]
  omega

/-- The element just appended is always the last element of the updated
buffer. -/
theorem pushCap_getLast {α : Type} (l : List α) (x : α) :
    (pushCap l x).getLast? = some x := by
  show (if MAX_POINTS < (l ++ [x]).length then (l ++ [x]).drop 1
    else l ++ [x]).getLast? = some x
  by_cases hc : MAX_POINTS < (l ++ [x]).length
  · rw [if_pos hc]
    cases l with
    | nil => simp [MAX_POINTS] at hc
    | cons a l' =>
        show ((l' ++ [x]).getLast?) = some x
        exact List.getLast?_concat _
  · rw [if_neg hc]
    exact List.getLast?_concat _

/-- Delivering a sequence of valid accel messages from a within-cap
state succeeds, preserves the status, and leaves the accel buffer equal
to the last-`MAX_POINTS` window of the old buffer extended by the
decoded samples in arrival order. -/
theorem processAll_accel (msgs : List (String × Option JSVal)) :
    ∀ st : AppState, (∀ m ∈ msgs, ValidAccel m) →
    st.accel.length ≤ MAX_POINTS →
    ∃ st', processAll st msgs = .ok st' ∧ st'.status = st.status ∧
      st'.accel = lastN MAX_POINTS (st.accel ++ msgs.map sampleOfMsg) := by
  induction msgs with
  | nil =>
      intro st _ hlen
      exact ⟨st, rfl, rfl, by simp [lastN_of_le hlen]⟩
  | cons m ms ih =>
      intro st hv hlen
      obtain ⟨fs, hm, hhit⟩ := hv m (List.mem_cons_self m ms)
      have hstep := handleMessage_obj st m.1 fs
      rw [if_pos hhit] at hstep
      obtain ⟨st', hrun, hstat, hacc⟩ :=
        ih ⟨st.status, pushCap st.accel (accelSampleOf m.1 fs),
            if gyroHit fs then pushCap st.gyro (gyroSampleOf m.1 fs) else st.gyro⟩
          (fun m' hm' => hv m' (List.mem_cons_of_mem m hm'))
          (pushCap_length_le st.accel _ hlen)
      refine ⟨st', ?_, hstat, ?_⟩
      · simp only [processAll]
        rw [hm, hstep]
        exact hrun
      · rw [hacc]
        show lastN MAX_POINTS (pushCap st.accel (accelSampleOf m.1 fs) ++ _) = _
        rw [pushCap_eq_lastN st.accel _ hlen, lastN_append_lastN,
          List.append_assoc]
        have hs : sampleOfMsg m = accelSampleOf m.1 fs := by
          simp [sampleOfMsg, hm]
        simp [hs]

/-- The buffer update, split by whether the buffer is below the cap:
below, it is a plain append; at the cap, the oldest element is removed
and the new one appended. -/
theorem pushCap_cases {α : Type} (l : List α) (x : α)
    (h : l.length ≤ MAX_POINTS) :
    pushCap l x = (if l.length < MAX_POINTS then l else l.drop 1) ++ [x] := by
  have hM : MAX_POINTS = 300 := rfl
  have hlen : (l ++ [x]).length = l.length + 1 := by simp
  show (if MAX_POINTS < (l ++ [x]).length then (l ++ [x]).drop 1
    else l ++ [x]) = _
  by_cases hc : l.length < MAX_POINTS
  · rw [if_pos hc, if_neg (by omega : ¬ MAX_POINTS < (l ++ [x]).length)]
  · rw [if_neg hc, if_pos (by omega : MAX_POINTS < (l ++ [x]).length)]
    exact List.drop_append_of_le_length (by omega)

/-- Appending to a buffer already holding `MAX_POINTS` copies of the
same element evicts one copy and appends another, leaving the buffer
unchanged. -/
theorem pushCap_replicate_self {α : Type} (s : α) :
    pushCap (List.replicate MAX_POINTS s) s = List.replicate MAX_POINTS s := by
  show (if MAX_POINTS < (List.replicate MAX_POINTS s ++ [s]).length then
    (List.replicate MAX_POINTS s ++ [s]).drop 1
    else List.replicate MAX_POINTS s ++ [s]) = _
  have h1 : List.replicate MAX_POINTS s ++ [s] =
      s :: List.replicate MAX_POINTS s := by
    rw [← List.replicate_succ', List.replicate_succ]
  rw [h1, if_pos (by
    simp only [List.length_cons, List.length_replicate]
    omega)]
  rfl

/-- Delivering a sequence of valid accel-only messages (accel guard
fires, gyro guard does not) from a within-cap state: the run succeeds,
status and gyro buffer are untouched, and the accel buffer is the
sliding window over the appended samples. -/
theorem processAll_accelOnly (msgs : List (String × Option JSVal)) :
    ∀ st : AppState,
    (∀ m ∈ msgs, ∃ fs, m.2 = some (.obj fs) ∧ accelHit fs = true ∧
      gyroHit fs = false) →
    st.accel.length ≤ MAX_POINTS →
    ∃ st', processAll st msgs = .ok st' ∧ st'.status = st.status ∧
      st'.gyro = st.gyro ∧
      st'.accel = lastN MAX_POINTS (st.accel ++ msgs.map sampleOfMsg) := by
  induction msgs with
  | nil =>
      intro st _ hlen
      exact ⟨st, rfl, rfl, rfl, by simp [lastN_of_le hlen]⟩
  | cons m ms ih =>
      intro st hv hlen
      obtain ⟨fs, hm, hhit, hgy⟩ := hv m (List.mem_cons_self m ms)
      have hstep := handleMessage_obj st m.1 fs
      rw [if_pos hhit, if_neg (by simp [hgy])] at hstep
      obtain ⟨st', hrun, hstat, hgyro, hacc⟩ :=
        ih ⟨st.status, pushCap st.accel (accelSampleOf m.1 fs), st.gyro⟩
          (fun m' hm' => hv m' (List.mem_cons_of_mem m hm'))
          (pushCap_length_le st.accel _ hlen)
      refine ⟨st', ?_, hstat, hgyro, ?_⟩
      · simp only [processAll]
        rw [hm, hstep]
        exact hrun
      · rw [hacc]
        show lastN MAX_POINTS (pushCap st.accel (accelSampleOf m.1 fs) ++ _) = _
        rw [pushCap_eq_lastN st.accel _ hlen, lastN_append_lastN,
          List.append_assoc]
        have hs : sampleOfMsg m = accelSampleOf m.1 fs := by
          simp [sampleOfMsg, hm]
        simp [hs]

/-!
Claim theorems.
-/

/-- C1: for every parsed JSON message object, each of the six logical
fields (`ax, ay, az, gx, gy, gz`) decodes to the pre-scaled field's
value when that field is present and non-null; otherwise, when the raw
integer-scaled field (`*_mg` / `*_cds`) is present and non-null, to that
raw value divided by 1000 (accelerometer) or 100 (gyroscope); otherwise
to null. -/
theorem c1_field_fallback (fs : List (String × JSVal)) :
    decodeMsg (.obj fs) = .ok
      ⟨specResolve fs "ax" "ax_mg" 1000, specResolve fs "ay" "ay_mg" 1000,
       specResolve fs "az" "az_mg" 1000, specResolve fs "gx" "gx_cds" 100,
       specResolve fs "gy" "gy_cds" 100, specResolve fs "gz" "gz_cds" 100⟩ :=
  decodeMsg_obj fs

/-- C2: from any state whose buffers are within the cap (an invariant of
every reachable state, as the initial buffers are empty), a message that
the handler processes without throwing leaves both buffers within
`MAX_POINTS`; each buffer is either untouched or extended by one sample
at the end, with exactly the oldest element dropped first when the
append would exceed the cap (FIFO sliding window). -/
theorem c2_buffer_cap_invariant (st : AppState) (t : String)
    (p : Option JSVal) (st' : AppState)
    (ha : st.accel.length ≤ MAX_POINTS) (hg : st.gyro.length ≤ MAX_POINTS)
    (h : handleMessage st t p = .ok st') :
    st'.accel.length ≤ MAX_POINTS ∧ st'.gyro.length ≤ MAX_POINTS ∧
    (st'.accel = st.accel ∨ ∃ s, st'.accel =
      (if st.accel.length < MAX_POINTS then st.accel
       else st.accel.drop 1) ++ [s]) ∧
    (st'.gyro = st.gyro ∨ ∃ s, st'.gyro =
      (if st.gyro.length < MAX_POINTS then st.gyro
       else st.gyro.drop 1) ++ [s]) := by
  cases p with
  | none =>
      have h' : Except.ok st = Except.ok st' := h
      injection h' with he
      subst he
      exact ⟨ha, hg, Or.inl rfl, Or.inl rfl⟩
  | some v =>
      cases v with
      | undefined =>
          have h' : (Except.error () : Except Unit AppState) = Except.ok st' := h
          exact absurd h' (by simp)
      | null =>
          have h' : (Except.error () : Except Unit AppState) = Except.ok st' := h
          exact absurd h' (by simp)
      | nan =>
          have h' : Except.ok st = Except.ok st' := h
          injection h' with he
          subst he
          exact ⟨ha, hg, Or.inl rfl, Or.inl rfl⟩
      | bool b =>
          have h' : Except.ok st = Except.ok st' := h
          injection h' with he
          subst he
          exact ⟨ha, hg, Or.inl rfl, Or.inl rfl⟩
      | num q =>
          have h' : Except.ok st = Except.ok st' := h
          injection h' with he
          subst he
          exact ⟨ha, hg, Or.inl rfl, Or.inl rfl⟩
      | str s =>
          have h' : Except.ok st = Except.ok st' := h
          injection h' with he
          subst he
          exact ⟨ha, hg, Or.inl rfl, Or.inl rfl⟩
      | arr l =>
          have h' : Except.ok st = Except.ok st' := h
          injection h' with he
          subst he
          exact ⟨ha, hg, Or.inl rfl, Or.inl rfl⟩
      | obj fs =>
          obtain ⟨sts, sa, sg⟩ := st'
          rw [handleMessage_obj] at h
          injection h with he
          injection he with h1 h2 h3
          subst h1
          subst h2
          subst h3
          refine ⟨?_, ?_, ?_, ?_⟩
          · by_cases hA : accelHit fs = true
            · rw [if_pos hA]
              exact pushCap_length_le _ _ ha
            · rw [if_neg hA]
              exact ha
          · by_cases hG : gyroHit fs = true
            · rw [if_pos hG]
              exact pushCap_length_le _ _ hg
            · rw [if_neg hG]
              exact hg
          · by_cases hA : accelHit fs = true
            · exact Or.inr ⟨accelSampleOf t fs, by
                rw [if_pos hA, pushCap_cases _ _ ha]⟩
            · exact Or.inl (by rw [if_neg hA])
          · by_cases hG : gyroHit fs = true
            · exact Or.inr ⟨gyroSampleOf t fs, by
                rw [if_pos hG, pushCap_cases _ _ hg]⟩
            · exact Or.inl (by rw [if_neg hG])

/-- Witness for C2 at a concrete input: the empty initial state and the
message `{"ax": 1}`. -/
theorem c2_buffer_cap_invariant_witness :
    initialState.accel.length ≤ MAX_POINTS ∧
    initialState.gyro.length ≤ MAX_POINTS ∧
    handleMessage initialState "t0" (some (.obj [("ax", JSVal.num 1)])) =
      .ok ⟨.connecting, [⟨"t0", .num 1, .null, .null⟩], []⟩ ∧
    ((⟨.connecting, [⟨"t0", .num 1, .null, .null⟩], []⟩ : AppState).accel.length
        ≤ MAX_POINTS ∧
      (⟨.connecting, [⟨"t0", .num 1, .null, .null⟩], []⟩ : AppState).gyro.length
        ≤ MAX_POINTS ∧
      ((⟨.connecting, [⟨"t0", .num 1, .null, .null⟩], []⟩ : AppState).accel =
          initialState.accel ∨
        ∃ s, (⟨.connecting, [⟨"t0", .num 1, .null, .null⟩], []⟩ : AppState).accel =
          (if initialState.accel.length < MAX_POINTS then initialState.accel
           else initialState.accel.drop 1) ++ [s]) ∧
      ((⟨.connecting, [⟨"t0", .num 1, .null, .null⟩], []⟩ : AppState).gyro =
          initialState.gyro ∨
        ∃ s, (⟨.connecting, [⟨"t0", .num 1, .null, .null⟩], []⟩ : AppState).gyro =
          (if initialState.gyro.length < MAX_POINTS then initialState.gyro
           else initialState.gyro.drop 1) ++ [s])) :=
  ⟨by decide, by decide, rfl,
   c2_buffer_cap_invariant initialState "t0" (some (.obj [("ax", JSVal.num 1)]))
     ⟨.connecting, [⟨"t0", .num 1, .null, .null⟩], []⟩
     (by decide) (by decide) rfl⟩

/-- C3 counterexample: the wire text `"null"` parses successfully to the
JSON value `null` — a non-object JSON value — yet the handler does not
discard it under the parse-failure policy: the field access `msg.ax`
(`App.jsx:68`) is a property access on `null`, and the resulting
`TypeError` propagates out of the handler, contradicting the claim at
this input. -/
theorem c3_discard_counterexample :
    handleMessage initialState "t0" (some JSVal.null) = .error () := rfl

/-- C3 (amended): for every payload whose text fails to parse as JSON,
and for every payload whose text parses to a non-object JSON value other
than `null`, the handler discards the message with no state mutation and
no escaping exception (the only effect is a diagnostic log); for the
JSON value `null` itself, a `TypeError` propagates out of the handler
(see the counterexample). -/
theorem c3_discard_amended (st : AppState) (t : String) (p : Option JSVal)
    (hp : p = none ∨ ∃ v, p = some v ∧ v.isNonNullNonObj = true) :
    handleMessage st t p = .ok st := by
  rcases hp with rfl | ⟨v, rfl, hv⟩
  · rfl
  · exact handleMessage_nonobj st t v hv

/-- Witness for the amended C3 at a concrete input: the payload text
`"42"`, which parses to a non-object JSON number. -/
theorem c3_discard_witness :
    ((some (JSVal.num 42) : Option JSVal) = none ∨
      ∃ v, (some (JSVal.num 42) : Option JSVal) = some v ∧
        v.isNonNullNonObj = true) ∧
    handleMessage initialState "t0" (some (JSVal.num 42)) = .ok initialState :=
  ⟨Or.inr ⟨JSVal.num 42, rfl, rfl⟩,
   c3_discard_amended initialState "t0" (some (JSVal.num 42))
     (Or.inr ⟨JSVal.num 42, rfl, rfl⟩)⟩

/-- C4 counterexample: after `MAX_POINTS` valid accel messages the
buffer is full (a reachable state, as the first conjunct shows); the
next valid accel message then leaves the buffer length at `MAX_POINTS`
instead of increasing it by exactly 1 — here the state is even literally
unchanged, since the evicted and appended samples coincide. -/
theorem c4_append_counterexample :
    processAll initialState
      (List.replicate MAX_POINTS ("t0", some (JSVal.obj [("ax", JSVal.num 1)]))) =
      .ok ⟨.connecting,
        List.replicate MAX_POINTS ⟨"t0", JSVal.num 1, JSVal.null, JSVal.null⟩,
        []⟩ ∧
    handleMessage
      ⟨.connecting,
        List.replicate MAX_POINTS ⟨"t0", JSVal.num 1, JSVal.null, JSVal.null⟩,
        []⟩
      "t0" (some (JSVal.obj [("ax", JSVal.num 1)])) =
      .ok ⟨.connecting,
        List.replicate MAX_POINTS ⟨"t0", JSVal.num 1, JSVal.null, JSVal.null⟩,
        []⟩ ∧
    (List.replicate MAX_POINTS
      (⟨"t0", JSVal.num 1, JSVal.null, JSVal.null⟩ : AccelSample)).length ≠
    (List.replicate MAX_POINTS
      (⟨"t0", JSVal.num 1, JSVal.null, JSVal.null⟩ : AccelSample)).length + 1 := by
  refine ⟨?_, ?_, ?_⟩
  · obtain ⟨st', hrun, hstat, hgyro, hacc⟩ := processAll_accelOnly
        (List.replicate MAX_POINTS ("t0", some (JSVal.obj [("ax", JSVal.num 1)])))
        initialState
        (fun m' hm' => by
          rw [List.eq_of_mem_replicate hm']
          exact ⟨[("ax", JSVal.num 1)], rfl, rfl, rfl⟩)
        (by decide)
    have hmap : (List.replicate MAX_POINTS
        ("t0", some (JSVal.obj [("ax", JSVal.num 1)]))).map sampleOfMsg =
        List.replicate MAX_POINTS
          (⟨"t0", JSVal.num 1, JSVal.null, JSVal.null⟩ : AccelSample) := by
      rw [List.map_replicate]
      rfl
    have hacc' : st'.accel = List.replicate MAX_POINTS
        (⟨"t0", JSVal.num 1, JSVal.null, JSVal.null⟩ : AccelSample) := by
      rw [hacc, hmap, lastN_of_le (by simp [initialState])]
      simp [initialState]
    rw [hrun]
    obtain ⟨a, b, c⟩ := st'
    simp only [Except.ok.injEq, AppState.mk.injEq]
    exact ⟨hstat, hacc', hgyro⟩
  · show handleMessage _ "t0" (some (JSVal.obj [("ax", JSVal.num 1)])) = _
    rw [handleMessage_obj,
      if_pos (show accelHit [("ax", JSVal.num 1)] = true from rfl),
      if_neg (by decide : ¬ gyroHit [("ax", JSVal.num 1)] = true)]
    show Except.ok (⟨Status.connecting,
      pushCap (List.replicate MAX_POINTS
        (⟨"t0", JSVal.num 1, JSVal.null, JSVal.null⟩ : AccelSample))
        ⟨"t0", JSVal.num 1, JSVal.null, JSVal.null⟩, []⟩ : AppState) = _
    rw [pushCap_replicate_self]
  · simp only [List.length_replicate]
    omega

/-- C4 (amended): a valid JSON message object passing the accelerometer
guard increases the accel buffer length by exactly 1 when the buffer is
below `MAX_POINTS`; when the buffer is at the cap the length stays at
`MAX_POINTS` (the oldest sample having been evicted).  In both cases the
buffer's new last element carries the normalized field values of the
specification's fallback rule. -/
theorem c4_append_amended (st : AppState) (t : String)
    (fs : List (String × JSVal)) (hhit : accelHit fs = true)
    (hlen : st.accel.length ≤ MAX_POINTS) :
    ∃ st', handleMessage st t (some (.obj fs)) = .ok st' ∧
      st'.accel.length =
        (if st.accel.length < MAX_POINTS then st.accel.length + 1
         else st.accel.length) ∧
      st'.accel.getLast? = some ⟨t, specResolve fs "ax" "ax_mg" 1000,
        specResolve fs "ay" "ay_mg" 1000, specResolve fs "az" "az_mg" 1000⟩ := by
  refine ⟨⟨st.status, pushCap st.accel (accelSampleOf t fs),
    if gyroHit fs = true then pushCap st.gyro (gyroSampleOf t fs)
    else st.gyro⟩, ?_, ?_, ?_⟩
  · rw [handleMessage_obj, if_pos hhit]
  · show (pushCap st.accel (accelSampleOf t fs)).length = _
    rw [pushCap_cases _ _ hlen]
    by_cases hc : st.accel.length < MAX_POINTS
    · rw [if_pos hc, if_pos hc]
      simp
    · rw [if_neg hc, if_neg hc]
      have hM : MAX_POINTS = 300 := rfl
      simp only [List.length_append, List.length_drop, List.length_cons,
        List.length_nil]
      omega
  · show (pushCap st.accel (accelSampleOf t fs)).getLast? = _
    rw [pushCap_getLast]
    rfl

/-- Witness for the amended C4 at a concrete input: the empty initial
state and the message `{"ax": 1}`. -/
theorem c4_append_amended_witness :
    accelHit [("ax", JSVal.num 1)] = true ∧
    initialState.accel.length ≤ MAX_POINTS ∧
    (∃ st', handleMessage initialState "t0"
        (some (.obj [("ax", JSVal.num 1)])) = .ok st' ∧
      st'.accel.length =
        (if initialState.accel.length < MAX_POINTS then
          initialState.accel.length + 1
         else initialState.accel.length) ∧
      st'.accel.getLast? = some ⟨"t0",
        specResolve [("ax", JSVal.num 1)] "ax" "ax_mg" 1000,
        specResolve [("ax", JSVal.num 1)] "ay" "ay_mg" 1000,
        specResolve [("ax", JSVal.num 1)] "az" "az_mg" 1000⟩) :=
  ⟨rfl, by decide,
   c4_append_amended initialState "t0" [("ax", JSVal.num 1)] rfl (by decide)⟩

/-- C5: for every sequence of more than `MAX_POINTS` valid accel
messages delivered in some arrival order, processing them from the
initial state succeeds, and the accel buffer ends with length exactly
`MAX_POINTS`, holding exactly the samples decoded from the most recent
`MAX_POINTS` messages in arrival order (the oldest samples having been
dropped first). -/
theorem c5_sliding_window (msgs : List (String × Option JSVal))
    (hlen : MAX_POINTS < msgs.length) (hv : ∀ m ∈ msgs, ValidAccel m) :
    ∃ st', processAll initialState msgs = .ok st' ∧
      st'.accel.length = MAX_POINTS ∧
      st'.accel = (msgs.drop (msgs.length - MAX_POINTS)).map sampleOfMsg := by
  obtain ⟨st', hrun, _, hacc⟩ := processAll_accel msgs initialState hv (by decide)
  have hacc' : st'.accel = lastN MAX_POINTS (msgs.map sampleOfMsg) := by
    rw [hacc]
    simp [initialState]
  refine ⟨st', hrun, ?_, ?_⟩
  · rw [hacc']
    show ((msgs.map sampleOfMsg).drop
      ((msgs.map sampleOfMsg).length - MAX_POINTS)).length = MAX_POINTS
    simp only [List.length_drop, List.length_map]
    omega
  · rw [hacc']
    show (msgs.map sampleOfMsg).drop
      ((msgs.map sampleOfMsg).length - MAX_POINTS) = _
    rw [List.length_map, ← List.map_drop]

/-- Witness for C5 at a concrete input: `MAX_POINTS + 1` copies of the
message `{"ax": 1}`. -/
theorem c5_sliding_window_witness :
    MAX_POINTS < (List.replicate (MAX_POINTS + 1)
      ("t0", some (JSVal.obj [("ax", JSVal.num 1)]))).length ∧
    (∀ m ∈ List.replicate (MAX_POINTS + 1)
      ("t0", some (JSVal.obj [("ax", JSVal.num 1)])), ValidAccel m) ∧
    (∃ st', processAll initialState (List.replicate (MAX_POINTS + 1)
        ("t0", some (JSVal.obj [("ax", JSVal.num 1)]))) = .ok st' ∧
      st'.accel.length = MAX_POINTS ∧
      st'.accel = ((List.replicate (MAX_POINTS + 1)
        ("t0", some (JSVal.obj [("ax", JSVal.num 1)]))).drop
        ((List.replicate (MAX_POINTS + 1)
          ("t0", some (JSVal.obj [("ax", JSVal.num 1)]))).length -
            MAX_POINTS)).map sampleOfMsg) :=
  ⟨by simp, fun m hm => by
      rw [List.eq_of_mem_replicate hm]
      exact ⟨[("ax", JSVal.num 1)], rfl, rfl⟩,
   c5_sliding_window _ (by simp) (fun m hm => by
      rw [List.eq_of_mem_replicate hm]
      exact ⟨[("ax", JSVal.num 1)], rfl, rfl⟩)⟩

/-- C6: for every parsed JSON message object, an accelerometer sample is
appended (with FIFO eviction at the cap) exactly when some decoded field
of `ax/ay/az` is non-null, and independently a gyroscope sample is
appended exactly when some decoded field of `gx/gy/gz` is non-null — so
a single message may update one buffer, both, or neither, and a buffer
is never touched when its guard fails. -/
theorem c6_routing (st : AppState) (t : String) (fs : List (String × JSVal)) :
    handleMessage st t (some (.obj fs)) = .ok ⟨st.status,
      if accelHit fs = true then pushCap st.accel (accelSampleOf t fs)
      else st.accel,
      if gyroHit fs = true then pushCap st.gyro (gyroSampleOf t fs)
      else st.gyro⟩ :=
  handleMessage_obj st t fs

/-- C7 counterexample: the message `{"ax": "oops"}` carries a wrong
(non-numeric) type in a recognized field, yet it is not discarded: the
handler appends the ill-typed value to the accel buffer, mutating it,
contradicting the claim at this input. -/
theorem c7_wrong_type_counterexample :
    handleMessage initialState "t0" (some (.obj [("ax", JSVal.str "oops")])) =
      .ok ⟨.connecting, [⟨"t0", JSVal.str "oops", JSVal.null, JSVal.null⟩],
        []⟩ ∧
    (⟨.connecting, [⟨"t0", JSVal.str "oops", JSVal.null, JSVal.null⟩], []⟩ :
      AppState).accel ≠ initialState.accel :=
  ⟨rfl, by simp [initialState]⟩

/-- C7 (amended): malformed JSON is fully recovered locally — the
message is discarded with only a diagnostic log, no buffer is mutated,
no exception escapes, and processing continues with the next message.
Recognized fields carrying wrong (non-numeric) types are, however, not
treated as decode errors: their non-null values are appended to the
buffer as-is (see the counterexample). -/
theorem c7_decode_error_amended (st : AppState) (t : String) (v : JSVal)
    (hv : v.isNullish = false) :
    handleMessage st t none = .ok st ∧
    ∃ st', handleMessage st t (some (.obj [("ax", v)])) = .ok st' ∧
      st'.accel.getLast? = some ⟨t, v, .null, .null⟩ := by
  refine ⟨rfl, ⟨st.status, pushCap st.accel (accelSampleOf t [("ax", v)]),
    if gyroHit [("ax", v)] = true then
      pushCap st.gyro (gyroSampleOf t [("ax", v)])
    else st.gyro⟩, ?_, ?_⟩
  · have hhit : accelHit [("ax", v)] = true := by
      simp [accelHit, decodeObj, specResolve, specRawFallback, lookupField,
        anyNonNull, hv]
    rw [handleMessage_obj, if_pos hhit]
  · show (pushCap st.accel (accelSampleOf t [("ax", v)])).getLast? = _
    rw [pushCap_getLast]
    have hd : decodeObj [("ax", v)] = ⟨v, .null, .null, .null, .null, .null⟩ := by
      simp [decodeObj, specResolve, specRawFallback, lookupField, hv]
    simp [accelSampleOf, hd]

/-- Witness for the amended C7 at a concrete input: the well-typed
non-null field value 3. -/
theorem c7_decode_error_witness :
    (JSVal.num 3).isNullish = false ∧
    (handleMessage initialState "t0" none = .ok initialState ∧
     ∃ st', handleMessage initialState "t0"
        (some (.obj [("ax", JSVal.num 3)])) = .ok st' ∧
       st'.accel.getLast? = some ⟨"t0", JSVal.num 3, .null, .null⟩) :=
  ⟨rfl, c7_decode_error_amended initialState "t0" (JSVal.num 3) rfl⟩

/-- C8: the connection status starts at `connecting` on mount, and the
lifecycle events `connect`, `reconnect`, `close`, in that order, produce
exactly the status sequence
`connecting → connected → reconnecting → closed`, with no state skipped
or repeated in between. -/
theorem c8_status_sequence :
    initialState.status = .connecting ∧
    statusesFrom initialState.status [.connect, .reconnect, .close] =
      [.connecting, .connected, .reconnecting, .closed] :=
  ⟨rfl, rfl⟩

/-- C9 (frame conditions): processing a message never changes the
connection status; a message whose gyroscope guard does not fire leaves
the gyro buffer unchanged, and symmetrically a message whose
accelerometer guard does not fire leaves the accel buffer unchanged. -/
theorem c9_frame (st : AppState) (t : String) (p : Option JSVal)
    (st' : AppState) (h : handleMessage st t p = .ok st') :
    st'.status = st.status ∧
    ((∀ fs, p = some (.obj fs) → gyroHit fs = false) → st'.gyro = st.gyro) ∧
    ((∀ fs, p = some (.obj fs) → accelHit fs = false) →
      st'.accel = st.accel) := by
  cases p with
  | none =>
      have h' : Except.ok st = Except.ok st' := h
      injection h' with he
      subst he
      exact ⟨rfl, fun _ => rfl, fun _ => rfl⟩
  | some v =>
      cases v with
      | undefined =>
          exact absurd
            (show (Except.error () : Except Unit AppState) = .ok st' from h)
            (by simp)
      | null =>
          exact absurd
            (show (Except.error () : Except Unit AppState) = .ok st' from h)
            (by simp)
      | nan =>
          have h' : Except.ok st = Except.ok st' := h
          injection h' with he
          subst he
          exact ⟨rfl, fun _ => rfl, fun _ => rfl⟩
      | bool b =>
          have h' : Except.ok st = Except.ok st' := h
          injection h' with he
          subst he
          exact ⟨rfl, fun _ => rfl, fun _ => rfl⟩
      | num q =>
          have h' : Except.ok st = Except.ok st' := h
          injection h' with he
          subst he
          exact ⟨rfl, fun _ => rfl, fun _ => rfl⟩
      | str s =>
          have h' : Except.ok st = Except.ok st' := h
          injection h' with he
          subst he
          exact ⟨rfl, fun _ => rfl, fun _ => rfl⟩
      | arr l =>
          have h' : Except.ok st = Except.ok st' := h
          injection h' with he
          subst he
          exact ⟨rfl, fun _ => rfl, fun _ => rfl⟩
      | obj fs =>
          obtain ⟨a, b2, c⟩ := st'
          rw [handleMessage_obj] at h
          injection h with he
          injection he with h1 h2 h3
          subst h1
          subst h2
          subst h3
          refine ⟨rfl, ?_, ?_⟩
          · intro hg
            have hgf : ¬ (gyroHit fs = true) := by simp [hg fs rfl]
            rw [if_neg hgf]
          · intro ha
            have haf : ¬ (accelHit fs = true) := by simp [ha fs rfl]
            rw [if_neg haf]

/-- Witness for C9 at a concrete input: the accel-only message
`{"ax": 1}` leaves the status and the gyro buffer unchanged. -/
theorem c9_frame_witness :
    handleMessage initialState "t0" (some (.obj [("ax", JSVal.num 1)])) =
      .ok ⟨.connecting, [⟨"t0", JSVal.num 1, JSVal.null, JSVal.null⟩], []⟩ ∧
    ((⟨.connecting, [⟨"t0", JSVal.num 1, JSVal.null, JSVal.null⟩], []⟩ :
        AppState).status = initialState.status ∧
     ((∀ fs, (some (JSVal.obj [("ax", JSVal.num 1)]) : Option JSVal) =
          some (.obj fs) → gyroHit fs = false) →
       (⟨.connecting, [⟨"t0", JSVal.num 1, JSVal.null, JSVal.null⟩], []⟩ :
         AppState).gyro = initialState.gyro) ∧
     ((∀ fs, (some (JSVal.obj [("ax", JSVal.num 1)]) : Option JSVal) =
          some (.obj fs) → accelHit fs = false) →
       (⟨.connecting, [⟨"t0", JSVal.num 1, JSVal.null, JSVal.null⟩], []⟩ :
         AppState).accel = initialState.accel)) :=
  ⟨rfl, c9_frame initialState "t0" (some (.obj [("ax", JSVal.num 1)]))
    ⟨.connecting, [⟨"t0", JSVal.num 1, JSVal.null, JSVal.null⟩], []⟩ rfl⟩

/-- C10: a message that updates both buffers appends an accelerometer
sample and a gyroscope sample carrying the identical timestamp `t`,
computed once per message before routing. -/
theorem c10_shared_timestamp (st : AppState) (t : String)
    (fs : List (String × JSVal)) (st' : AppState)
    (h : handleMessage st t (some (.obj fs)) = .ok st')
    (hA : accelHit fs = true) (hG : gyroHit fs = true) :
    ∃ a g, st'.accel.getLast? = some a ∧ st'.gyro.getLast? = some g ∧
      a.t = t ∧ g.t = t := by
  rw [handleMessage_obj, if_pos hA, if_pos hG] at h
  obtain ⟨a0, b0, c0⟩ := st'
  injection h with he
  injection he with h1 h2 h3
  subst h1
  subst h2
  subst h3
  exact ⟨accelSampleOf t fs, gyroSampleOf t fs,
    pushCap_getLast _ _, pushCap_getLast _ _, rfl, rfl⟩

/-- Witness for C10 at a concrete input: the message
`{"ax": 1, "gx": 2}` updates both buffers with the same timestamp. -/
theorem c10_shared_timestamp_witness :
    handleMessage initialState "t0"
      (some (.obj [("ax", JSVal.num 1), ("gx", JSVal.num 2)])) =
      .ok ⟨.connecting, [⟨"t0", JSVal.num 1, JSVal.null, JSVal.null⟩],
        [⟨"t0", JSVal.num 2, JSVal.null, JSVal.null⟩]⟩ ∧
    accelHit [("ax", JSVal.num 1), ("gx", JSVal.num 2)] = true ∧
    gyroHit [("ax", JSVal.num 1), ("gx", JSVal.num 2)] = true ∧
    (∃ a g, (⟨.connecting, [⟨"t0", JSVal.num 1, JSVal.null, JSVal.null⟩],
        [⟨"t0", JSVal.num 2, JSVal.null, JSVal.null⟩]⟩ :
          AppState).accel.getLast? = some a ∧
      (⟨.connecting, [⟨"t0", JSVal.num 1, JSVal.null, JSVal.null⟩],
        [⟨"t0", JSVal.num 2, JSVal.null, JSVal.null⟩]⟩ :
          AppState).gyro.getLast? = some g ∧
      a.t = "t0" ∧ g.t = "t0") :=
  ⟨rfl, rfl, rfl,
   c10_shared_timestamp initialState "t0"
     [("ax", JSVal.num 1), ("gx", JSVal.num 2)]
     ⟨.connecting, [⟨"t0", JSVal.num 1, JSVal.null, JSVal.null⟩],
       [⟨"t0", JSVal.num 2, JSVal.null, JSVal.null⟩]⟩ rfl rfl rfl⟩
